import Mathlib

/-!
Shallow embedding of the `stability` crate's declaration-rewriting engine
(`src/unstable.rs` and the dispatch in `src/lib.rs`).

The engine receives one annotated declaration together with the parsed
arguments of the annotation, and emits either the declaration unchanged
(non-public input) or two feature-gated variants (public input).
-/

/-- Mirror of `syn::Visibility`: `pub`, `pub(crate)`/`pub(super)`/`pub(in p)`
carrying the restriction path, or inherited (private) visibility. -/
inductive Visibility where
  | pub
  | restricted (path : String)
  | inherited
deriving DecidableEq

/-- An attribute attached to an item: either a `doc` attribute carrying its
text (the only kind the engine ever creates, via `#[doc = ...]`), or any other
attribute kept opaque as raw tokens. -/
inductive Attr where
  | doc (text : String)
  | other (tokens : String)
deriving DecidableEq

/-- A field of a struct: its visibility plus the rest of the field
(name, type, attributes) kept opaque as raw tokens. -/
structure SynField where
  vis : Visibility
  tokens : String
deriving DecidableEq

/-- Common data of the eight item shapes handled by the
`impl_has_visibility!` block (`ItemType`, `ItemEnum`, `ItemFn`, `ItemMod`,
`ItemTrait`, `ItemConst`, `ItemStatic`, `ItemUse`): attribute list,
visibility, and the remaining tokens of the item kept opaque. -/
structure ItemData where
  attrs : List Attr
  vis : Visibility
  tokens : String
deriving DecidableEq

/-- Mirror of `syn::ItemStruct` as used by the engine: attribute list,
visibility, fields, and the remaining tokens kept opaque. -/
structure StructData where
  attrs : List Attr
  vis : Visibility
  fields : List SynField
  tokens : String
deriving DecidableEq

/-- The nine item shapes for which `ItemLike` is implemented: the eight
shapes of the `impl_has_visibility!` block plus `syn::ItemStruct`, which has
its own `ItemLike` implementation cascading visibility into fields. -/
inductive Item where
  | itemType (d : ItemData)
  | itemEnum (d : ItemData)
  | itemStruct (s : StructData)
  | itemFn (d : ItemData)
  | itemMod (d : ItemData)
  | itemTrait (d : ItemData)
  | itemConst (d : ItemData)
  | itemStatic (d : ItemData)
  | itemUse (d : ItemData)
deriving DecidableEq

/-- Mirror of `syn::Item` as consumed by the entry point: one of the nine
shapes implementing `ItemLike`, or any other item variant (collapsed here
into `unsupported`, carrying its raw tokens), on which the dispatch panics
with "unsupported item type". -/
inductive SynItem where
  | known (i : Item)
  | unsupported (tokens : String)
deriving DecidableEq

/-- Mirror of `ItemLike::attrs`. -/
def Item.attrs : Item → List Attr
  | .itemType d | .itemEnum d | .itemFn d | .itemMod d | .itemTrait d
  | .itemConst d | .itemStatic d | .itemUse d => d.attrs
  | .itemStruct s => s.attrs

/-- Mirror of `ItemLike::push_attr`: `self.attrs.push(attr)` on every shape. -/
def Item.push_attr : Item → Attr → Item
  | .itemType d, a => .itemType { d with attrs := d.attrs ++ [a] }
  | .itemEnum d, a => .itemEnum { d with attrs := d.attrs ++ [a] }
  | .itemStruct s, a => .itemStruct { s with attrs := s.attrs ++ [a] }
  | .itemFn d, a => .itemFn { d with attrs := d.attrs ++ [a] }
  | .itemMod d, a => .itemMod { d with attrs := d.attrs ++ [a] }
  | .itemTrait d, a => .itemTrait { d with attrs := d.attrs ++ [a] }
  | .itemConst d, a => .itemConst { d with attrs := d.attrs ++ [a] }
  | .itemStatic d, a => .itemStatic { d with attrs := d.attrs ++ [a] }
  | .itemUse d, a => .itemUse { d with attrs := d.attrs ++ [a] }

/-- Mirror of `ItemLike::visibility`. -/
def Item.visibility : Item → Visibility
  | .itemType d | .itemEnum d | .itemFn d | .itemMod d | .itemTrait d
  | .itemConst d | .itemStatic d | .itemUse d => d.vis
  | .itemStruct s => s.vis

/-- The field-cascading step of `<syn::ItemStruct as ItemLike>::set_visibility`:
`self.fields.iter_mut().filter(|field| matches!(&field.vis, Visibility::Public(_))).for_each(|field| field.vis = visibility.clone())`. -/
def cascadeFields (visibility : Visibility) (fields : List SynField) : List SynField :=
  fields.map fun field =>
    match field.vis with
    | .pub => { field with vis := visibility }
    | _ => field

/-- Mirror of `ItemLike::set_visibility`: the eight generic shapes replace
`self.vis`; `ItemStruct` additionally constrains the visibility of all
currently-public fields. -/
def Item.set_visibility : Item → Visibility → Item
  | .itemType d, v => .itemType { d with vis := v }
  | .itemEnum d, v => .itemEnum { d with vis := v }
  | .itemStruct s, v =>
      .itemStruct { s with vis := v, fields := cascadeFields v s.fields }
  | .itemFn d, v => .itemFn { d with vis := v }
  | .itemMod d, v => .itemMod { d with vis := v }
  | .itemTrait d, v => .itemTrait { d with vis := v }
  | .itemConst d, v => .itemConst { d with vis := v }
  | .itemStatic d, v => .itemStatic { d with vis := v }
  | .itemUse d, v => .itemUse { d with vis := v }

/-- Mirror of `ItemLike::is_public`:
`matches!(self.visibility(), Visibility::Public(_))`. -/
def Item.is_public (i : Item) : Bool :=
  match i.visibility with
  | .pub => true
  | _ => false

/-- The fields of an item: the struct shape's field list, empty for the
other shapes (which carry no fields in this abstraction). -/
def Item.fields : Item → List SynField
  | .itemStruct s => s.fields
  | _ => []

/-- Mirror of the `UnstableAttribute` struct: the configuration parsed from
the annotation's arguments. -/
structure UnstableAttribute where
  feature : Option String := none
  issue : Option String := none
deriving DecidableEq

/-- A Rust literal, as parsed by `meta.value()?.parse::<syn::Lit>()?`. Only
the string case matters to the engine; every non-string literal is collapsed
into its kind. -/
inductive Lit where
  | str (value : String)
  | int (value : Int)
  | bool (value : Bool)
deriving DecidableEq

/-- The tokens found after `=` in a nested meta argument: a literal, or any
non-literal expression (on which `parse::<syn::Lit>()` fails). -/
inductive MetaValue where
  | lit (l : Lit)
  | notLit (tokens : String)
deriving DecidableEq

/-- One nested meta argument of the annotation (`ParseNestedMeta`): a path and
optionally the value after `=`; `value = none` models a bare path, on which
`meta.value()` fails. -/
structure NestedMeta where
  path : String
  value : Option MetaValue
deriving DecidableEq

/-- How parsing one argument fails: a `syn` parse error surfaced as a compile
error (missing `=` value, or tokens that are not a literal), or the
explicit `panic!()` on a literal that is not a string. Both abort the build. -/
inductive ParseErr where
  | synError
  | panicked
deriving DecidableEq

/-- Mirror of the callback `UnstableAttribute::parse`, one `ParseNestedMeta`
at a time: `feature` and `issue` bound to string literals update the
configuration, a recognized path bound to a non-string literal panics, a
missing or non-literal value on a recognized path is a `syn` error, and any
other path is accepted unchanged — note that in this last case the callback
reads only the path and does not consume a `= value` that may follow; the
driver's check on those leftover tokens is `driveArg`. -/
def UnstableAttribute.parse (a : UnstableAttribute) (m : NestedMeta) :
    Except ParseErr UnstableAttribute :=
  if m.path = "feature" then
    match m.value with
    | some (.lit (.str s)) => .ok { a with feature := some s }
    | some (.lit _) => .error .panicked
    | some (.notLit _) => .error .synError
    | none => .error .synError
  else if m.path = "issue" then
    match m.value with
    | some (.lit (.str s)) => .ok { a with issue := some s }
    | some (.lit _) => .error .panicked
    | some (.notLit _) => .error .synError
    | none => .error .synError
  else
    .ok a

/-- One step of the driver that `syn::meta::parser` builds around the
callback: run `UnstableAttribute::parse` on the argument, then demand a
comma or end of input. The callback consumes the `= value` tokens only for
the recognized paths `feature` and `issue`, so an unrecognized path that
carries a value leaves its `= value` unconsumed and the driver fails with an
expected-comma parse error; a bare unrecognized path is accepted. -/
def driveArg (a : UnstableAttribute) (m : NestedMeta) :
    Except ParseErr UnstableAttribute :=
  match a.parse m with
  | .error e => .error e
  | .ok a' =>
      if m.path = "feature" ∨ m.path = "issue" ∨ m.value = none then .ok a'
      else .error .synError

/-- The driver loop `syn::meta::parser` generates: fold the callback plus
the driver's leftover-token check (`driveArg`) over the argument list from a
starting configuration, stopping at the first error. -/
def parseArgsFrom (a : UnstableAttribute) :
    List NestedMeta → Except ParseErr UnstableAttribute
  | [] => .ok a
  | m :: rest =>
      match driveArg a m with
      | .ok a' => parseArgsFrom a' rest
      | .error e => .error e

/-- Parse a whole argument list starting from `UnstableAttribute::default()`. -/
def parseArgs (args : List NestedMeta) : Except ParseErr UnstableAttribute :=
  parseArgsFrom {} args

/-- Mirror of `UnstableAttribute::crate_feature_name`. -/
def UnstableAttribute.crate_feature_name (a : UnstableAttribute) : String :=
  match a.feature with
  | some name => "unstable-" ++ name
  | none => "unstable"

/-- The constant part of the availability doc before the feature name. -/
def availabilityDocPre : String :=
  "\n# Availability\n\n**This API is marked as unstable** and is only available when the `"

/-- The constant part of the availability doc after the feature name. -/
def availabilityDocPost : String :=
  "` crate feature is enabled. This comes with no stability guarantees, and could be changed or removed at any time."

/-- The doc text appended when no `issue` was given: the first `format!` call
in `UnstableAttribute::expand`, with the feature name spliced in. -/
def availabilityDoc (feature_name : String) : String :=
  availabilityDocPre ++ feature_name ++ availabilityDocPost

/-- The doc text appended when an `issue` was given: the second `format!`
call in `UnstableAttribute::expand`, splicing both the feature name and the
issue text. -/
def availabilityDocWithIssue (feature_name issue : String) : String :=
  availabilityDocPre ++ feature_name ++ availabilityDocPost
    ++ "\nThe tracking issue is: `" ++ issue ++ "`"

/-- The doc addendum `UnstableAttribute::expand` appends: chosen by whether
`issue` is present. -/
def docAddendum (a : UnstableAttribute) : String :=
  match a.issue with
  | some issue => availabilityDocWithIssue a.crate_feature_name issue
  | none => availabilityDoc a.crate_feature_name

/-- The `cfg` condition attached to an emitted item: none (emitted
unconditionally), `#[cfg(feature = name)]`, or `#[cfg(not(feature = name))]`. -/
inductive CfgGate where
  | always
  | featureEnabled (name : String)
  | featureDisabled (name : String)
deriving DecidableEq

/-- Whether a gate lets its item be compiled under a given assignment of
enabled crate features. -/
def CfgGate.active (enabled : String → Bool) : CfgGate → Bool
  | .always => true
  | .featureEnabled name => enabled name
  | .featureDisabled name => !(enabled name)

/-- One item of the emitted token stream, together with the `cfg` gate and
the `#[allow(dead_code)]` marker placed in front of it by `expand`. -/
structure Emitted where
  gate : CfgGate
  allowDeadCode : Bool
  item : Item
deriving DecidableEq

/-- Mirror of `UnstableAttribute::expand`: a public item gets the doc
addendum appended, is cloned into a `pub(crate)` shadow copy, and both copies
are emitted behind complementary `cfg` gates on the crate feature name; a
non-public item is emitted back unchanged. -/
def UnstableAttribute.expand (a : UnstableAttribute) (item : Item) :
    List Emitted :=
  if item.is_public then
    let feature_name := a.crate_feature_name
    let item := item.push_attr (.doc (docAddendum a))
    let hidden_item := item.set_visibility (.restricted "crate")
    [ { gate := .featureEnabled feature_name, allowDeadCode := false,
        item := item },
      { gate := .featureDisabled feature_name, allowDeadCode := true,
        item := hidden_item } ]
  else
    [ { gate := .always, allowDeadCode := false, item := item } ]

/-- How the whole transformation fails: an argument-parsing failure, or the
`panic!("unsupported item type")` arm of the dispatch in `lib.rs`. -/
inductive ExpandError where
  | argError (e : ParseErr)
  | unsupportedItem
deriving DecidableEq

/-- Mirror of the `unstable` entry point in `lib.rs`: parse the arguments
into an `UnstableAttribute`, then dispatch on the item's shape, expanding
each of the nine supported shapes and panicking on anything else. -/
def unstable (args : List NestedMeta) (input : SynItem) :
    Except ExpandError (List Emitted) :=
  match parseArgs args with
  | .error e => .error (.argError e)
  | .ok attributes =>
      match input with
      | .known i => .ok (attributes.expand i)
      | .unsupported _ => .error .unsupportedItem

/-- Whether one annotation argument gets through parsing: a recognized name
(`feature` or `issue`) must be bound to a string literal, and any other name
must be bare — if it carries a value, the callback leaves that value
unconsumed and the driver rejects the argument. -/
def wellFormedArg (m : NestedMeta) : Bool :=
  if m.path = "feature" ∨ m.path = "issue" then
    match m.value with
    | some (.lit (.str _)) => true
    | _ => false
  else
    m.value.isNone

/-- Whether a `syn::Item` has one of the nine shapes the dispatch accepts. -/
def SynItem.isSupported : SynItem → Bool
  | .known _ => true
  | .unsupported _ => false

/-- A numeric tag telling the nine supported shapes apart. -/
def SynItem.shapeTag : SynItem → Nat
  | .known (.itemType _) => 0
  | .known (.itemEnum _) => 1
  | .known (.itemStruct _) => 2
  | .known (.itemFn _) => 3
  | .known (.itemMod _) => 4
  | .known (.itemTrait _) => 5
  | .known (.itemConst _) => 6
  | .known (.itemStatic _) => 7
  | .known (.itemUse _) => 8
  | .unsupported _ => 9

/-! ### Helper lemmas -/

theorem Item.push_attr_attrs (i : Item) (a : Attr) :
    (i.push_attr a).attrs = i.attrs ++ [a] := by
  cases i <;> rfl

theorem Item.push_attr_visibility (i : Item) (a : Attr) :
    (i.push_attr a).visibility = i.visibility := by
  cases i <;> rfl

theorem Item.push_attr_fields (i : Item) (a : Attr) :
    (i.push_attr a).fields = i.fields := by
  cases i <;> rfl

theorem expand_public_eq (a : UnstableAttribute) (i : Item)
    (h : i.is_public = true) :
    a.expand i =
      [ { gate := .featureEnabled a.crate_feature_name, allowDeadCode := false,
          item := i.push_attr (.doc (docAddendum a)) },
        { gate := .featureDisabled a.crate_feature_name, allowDeadCode := true,
          item := (i.push_attr (.doc (docAddendum a))).set_visibility
            (.restricted "crate") } ] := by
  simp [UnstableAttribute.expand, h]

/-! ### Sample values used by the witness theorems -/

def sampleAttr : UnstableAttribute :=
  { feature := some "risky-function", issue := some "#101" }

def sampleFnPub : Item :=
  .itemFn { attrs := [.other "inline"], vis := .pub, tokens := "fn risky_function()" }

def sampleFnCrate : Item :=
  .itemFn { attrs := [], vis := .restricted "crate", tokens := "fn helper()" }

/-- C1: for a public declaration, `expand` emits exactly two variants gated
on the computed flag with complementary conditions; the original variant is
active exactly when the flag is enabled, the shadow variant exactly when it
is disabled, and under any fixed feature assignment exactly one of the two
is active. -/
theorem c1_expand_public_two_exclusive_variants (a : UnstableAttribute)
    (i : Item) (enabled : String → Bool) (h : i.is_public = true) :
    ∃ visible shadow : Item,
      a.expand i =
        [ { gate := .featureEnabled a.crate_feature_name,
            allowDeadCode := false, item := visible },
          { gate := .featureDisabled a.crate_feature_name,
            allowDeadCode := true, item := shadow } ] ∧
      CfgGate.active enabled (.featureEnabled a.crate_feature_name)
        = enabled a.crate_feature_name ∧
      CfgGate.active enabled (.featureDisabled a.crate_feature_name)
        = !(enabled a.crate_feature_name) ∧
      ((a.expand i).filter fun e => CfgGate.active enabled e.gate).length
        = 1 := by
  refine ⟨i.push_attr (.doc (docAddendum a)),
    (i.push_attr (.doc (docAddendum a))).set_visibility (.restricted "crate"),
    expand_public_eq a i h, rfl, rfl, ?_⟩
  rw [expand_public_eq a i h]
  cases henabled : enabled a.crate_feature_name <;>
    simp [List.filter, CfgGate.active, henabled]

/-- Witness for C1: the sample public function under the all-features-enabled
assignment. -/
theorem c1_witness :
    ∃ visible shadow : Item,
      sampleAttr.expand sampleFnPub =
        [ { gate := .featureEnabled sampleAttr.crate_feature_name,
            allowDeadCode := false, item := visible },
          { gate := .featureDisabled sampleAttr.crate_feature_name,
            allowDeadCode := true, item := shadow } ] ∧
      CfgGate.active (fun _ => true)
          (.featureEnabled sampleAttr.crate_feature_name)
        = (fun _ : String => true) sampleAttr.crate_feature_name ∧
      CfgGate.active (fun _ => true)
          (.featureDisabled sampleAttr.crate_feature_name)
        = !((fun _ : String => true) sampleAttr.crate_feature_name) ∧
      ((sampleAttr.expand sampleFnPub).filter
          fun e => CfgGate.active (fun _ => true) e.gate).length = 1 :=
  c1_expand_public_two_exclusive_variants sampleAttr sampleFnPub
    (fun _ => true) rfl

/-- C2: a non-public declaration is returned unchanged by `expand`, with no
attribute appended, no shadow variant and no visibility change, whatever the
configuration. -/
theorem c2_expand_nonpublic_unchanged (a : UnstableAttribute) (i : Item)
    (h : i.is_public = false) :
    a.expand i = [{ gate := .always, allowDeadCode := false, item := i }] := by
  simp [UnstableAttribute.expand, h]

/-- Witness for C2: a `pub(crate)` function is passed through untouched. -/
theorem c2_witness :
    sampleFnCrate.is_public = false ∧
    sampleAttr.expand sampleFnCrate =
      [{ gate := .always, allowDeadCode := false, item := sampleFnCrate }] :=
  ⟨rfl, c2_expand_nonpublic_unchanged sampleAttr sampleFnCrate rfl⟩

theorem cascadeFields_forall₂ (v : Visibility) (fs : List SynField) :
    List.Forall₂
      (fun f g => (g.vis = if f.vis = Visibility.pub then v else f.vis) ∧
        g.tokens = f.tokens)
      fs (cascadeFields v fs) := by
  induction fs with
  | nil => exact .nil
  | cons f rest ih =>
      refine List.Forall₂.cons ⟨?_, ?_⟩ ih <;>
        cases hfv : f.vis <;> simp [cascadeFields, hfv]

theorem cascadeFields_idem (v : Visibility) (fs : List SynField) :
    cascadeFields v (cascadeFields v fs) = cascadeFields v fs := by
  induction fs with
  | nil => rfl
  | cons f rest ih =>
      cases hfv : f.vis <;> cases hv : v <;>
        simp_all [cascadeFields, hfv]

theorem cascadeFields_cons (v : Visibility) (f : SynField)
    (fs : List SynField) :
    cascadeFields v (f :: fs) =
      (match f.vis with
        | .pub => { f with vis := v }
        | _ => f) :: cascadeFields v fs := rfl

theorem cascadeFields_of_no_pub (v : Visibility) (fs : List SynField)
    (h : fs.all (fun f => f.vis != Visibility.pub) = true) :
    cascadeFields v fs = fs := by
  induction fs with
  | nil => rfl
  | cons f rest ih =>
      simp only [List.all_cons, Bool.and_eq_true] at h
      rw [cascadeFields_cons, ih h.2]
      cases hfv : f.vis
      · rw [hfv] at h; simp at h
      · simp [hfv]
      · simp [hfv]

/-- C3: on a Struct, `set_visibility v` replaces the struct's own visibility
with `v` and replaces exactly the currently-public fields' visibilities with
`v`, leaving non-public fields (and every field's remaining tokens)
untouched; on every other shape it changes only the shape's own visibility
field. -/
theorem c3_set_visibility_struct_cascade (s : StructData) (v : Visibility) :
    ((Item.itemStruct s).set_visibility v).visibility = v ∧
    (Item.itemStruct s).set_visibility v =
      Item.itemStruct
        { s with vis := v, fields := cascadeFields v s.fields } ∧
    List.Forall₂
      (fun f g => (g.vis = if f.vis = Visibility.pub then v else f.vis) ∧
        g.tokens = f.tokens)
      s.fields (cascadeFields v s.fields) ∧
    (∀ d : ItemData,
      (Item.itemType d).set_visibility v = .itemType { d with vis := v }) ∧
    (∀ d : ItemData,
      (Item.itemEnum d).set_visibility v = .itemEnum { d with vis := v }) ∧
    (∀ d : ItemData,
      (Item.itemFn d).set_visibility v = .itemFn { d with vis := v }) ∧
    (∀ d : ItemData,
      (Item.itemMod d).set_visibility v = .itemMod { d with vis := v }) ∧
    (∀ d : ItemData,
      (Item.itemTrait d).set_visibility v = .itemTrait { d with vis := v }) ∧
    (∀ d : ItemData,
      (Item.itemConst d).set_visibility v = .itemConst { d with vis := v }) ∧
    (∀ d : ItemData,
      (Item.itemStatic d).set_visibility v = .itemStatic { d with vis := v }) ∧
    (∀ d : ItemData,
      (Item.itemUse d).set_visibility v = .itemUse { d with vis := v }) :=
  ⟨rfl, rfl, cascadeFields_forall₂ v s.fields,
    fun _ => rfl, fun _ => rfl, fun _ => rfl, fun _ => rfl,
    fun _ => rfl, fun _ => rfl, fun _ => rfl, fun _ => rfl⟩

/-- C9: `set_visibility` with the engine's fixed restricted value
(`pub(crate)`) is idempotent on the Struct shape, and applying it to a
Struct whose own visibility is already that restricted value and whose
fields are all non-public changes nothing. -/
theorem c9_struct_restrict_idempotent (s : StructData) :
    (((Item.itemStruct s).set_visibility
        (.restricted "crate")).set_visibility (.restricted "crate")
      = (Item.itemStruct s).set_visibility (.restricted "crate")) ∧
    (s.vis = .restricted "crate" →
      s.fields.all (fun f => f.vis != Visibility.pub) = true →
      (Item.itemStruct s).set_visibility (.restricted "crate")
        = .itemStruct s) := by
  constructor
  · simp [Item.set_visibility, cascadeFields_idem]
  · intro hvis hfields
    simp [Item.set_visibility, cascadeFields_of_no_pub _ _ hfields, ← hvis]

def sampleRestrictedStruct : StructData :=
  { attrs := [], vis := .restricted "crate",
    fields := [ { vis := .restricted "crate", tokens := "a: u32" },
                { vis := .inherited, tokens := "b: u32" } ],
    tokens := "struct Hidden" }

/-- Witness for C9: a struct that is already fully restricted is a fixed
point of the restricting step. -/
theorem c9_witness :
    (((Item.itemStruct sampleRestrictedStruct).set_visibility
        (.restricted "crate")).set_visibility (.restricted "crate")
      = (Item.itemStruct sampleRestrictedStruct).set_visibility
          (.restricted "crate")) ∧
    (Item.itemStruct sampleRestrictedStruct).set_visibility
        (.restricted "crate")
      = .itemStruct sampleRestrictedStruct :=
  ⟨(c9_struct_restrict_idempotent sampleRestrictedStruct).1,
    (c9_struct_restrict_idempotent sampleRestrictedStruct).2 rfl rfl⟩

/-- C4: for a public declaration, both emitted `cfg` directives carry the
flag name `crate_feature_name`, which is `"unstable-" ++ feature` when a
feature was given and the literal `"unstable"` otherwise. -/
theorem c4_flag_name (a : UnstableAttribute) (i : Item)
    (h : i.is_public = true) :
    (∀ f, a.feature = some f →
      a.crate_feature_name = "unstable-" ++ f) ∧
    (a.feature = none → a.crate_feature_name = "unstable") ∧
    ∃ visible shadow : Item,
      a.expand i =
        [ { gate := .featureEnabled a.crate_feature_name,
            allowDeadCode := false, item := visible },
          { gate := .featureDisabled a.crate_feature_name,
            allowDeadCode := true, item := shadow } ] := by
  refine ⟨?_, ?_, i.push_attr (.doc (docAddendum a)),
    (i.push_attr (.doc (docAddendum a))).set_visibility (.restricted "crate"),
    expand_public_eq a i h⟩
  · intro f hf; simp [UnstableAttribute.crate_feature_name, hf]
  · intro hf; simp [UnstableAttribute.crate_feature_name, hf]

/-- Witness for C4: the sample configuration on the sample public function
produces the `unstable-risky-function` flag. -/
theorem c4_witness :
    (∀ f, sampleAttr.feature = some f →
      sampleAttr.crate_feature_name = "unstable-" ++ f) ∧
    (sampleAttr.feature = none →
      sampleAttr.crate_feature_name = "unstable") ∧
    ∃ visible shadow : Item,
      sampleAttr.expand sampleFnPub =
        [ { gate := .featureEnabled sampleAttr.crate_feature_name,
            allowDeadCode := false, item := visible },
          { gate := .featureDisabled sampleAttr.crate_feature_name,
            allowDeadCode := true, item := shadow } ] :=
  c4_flag_name sampleAttr sampleFnPub rfl

/-- C6: for a public declaration the visible variant equals the input with
exactly one doc attribute appended at the end of its attribute list and
nothing else changed — its visibility and its fields are those of the input
— and the shadow variant is computed from an independent copy, so restricting
the copy leaves the visible variant untouched. -/
theorem c6_visible_variant_frame (a : UnstableAttribute) (i : Item)
    (h : i.is_public = true) :
    ∃ shadow : Item,
      a.expand i =
        [ { gate := .featureEnabled a.crate_feature_name,
            allowDeadCode := false,
            item := i.push_attr (.doc (docAddendum a)) },
          { gate := .featureDisabled a.crate_feature_name,
            allowDeadCode := true, item := shadow } ] ∧
      (i.push_attr (.doc (docAddendum a))).attrs
        = i.attrs ++ [.doc (docAddendum a)] ∧
      (i.push_attr (.doc (docAddendum a))).visibility = i.visibility ∧
      (i.push_attr (.doc (docAddendum a))).fields = i.fields ∧
      shadow = (i.push_attr (.doc (docAddendum a))).set_visibility
        (.restricted "crate") :=
  ⟨(i.push_attr (.doc (docAddendum a))).set_visibility (.restricted "crate"),
    expand_public_eq a i h, i.push_attr_attrs _, i.push_attr_visibility _,
    i.push_attr_fields _, rfl⟩

/-- Witness for C6 at the sample public function. -/
theorem c6_witness :
    ∃ shadow : Item,
      sampleAttr.expand sampleFnPub =
        [ { gate := .featureEnabled sampleAttr.crate_feature_name,
            allowDeadCode := false,
            item := sampleFnPub.push_attr (.doc (docAddendum sampleAttr)) },
          { gate := .featureDisabled sampleAttr.crate_feature_name,
            allowDeadCode := true, item := shadow } ] ∧
      (sampleFnPub.push_attr (.doc (docAddendum sampleAttr))).attrs
        = sampleFnPub.attrs ++ [.doc (docAddendum sampleAttr)] ∧
      (sampleFnPub.push_attr (.doc (docAddendum sampleAttr))).visibility
        = sampleFnPub.visibility ∧
      (sampleFnPub.push_attr (.doc (docAddendum sampleAttr))).fields
        = sampleFnPub.fields ∧
      shadow = (sampleFnPub.push_attr
        (.doc (docAddendum sampleAttr))).set_visibility (.restricted "crate") :=
  c6_visible_variant_frame sampleAttr sampleFnPub rfl

/-- Whether the first character list is a prefix of the second. -/
def startsWithChars : List Char → List Char → Bool
  | [], _ => true
  | _ :: _, [] => false
  | p :: ps, c :: cs => (p == c) && startsWithChars ps cs

/-- Whether the first character list occurs contiguously in the second. -/
def containsChars (pat : List Char) : List Char → Bool
  | [] => startsWithChars pat []
  | c :: cs => startsWithChars pat (c :: cs) || containsChars pat cs

/-- C5: the doc attribute appended to a public declaration carries
`docAddendum`; that text contains the computed flag name verbatim, contains
the issue text verbatim exactly when an issue was configured, and when no
issue was configured it is just the availability text, whose constant parts
never mention a tracking issue. -/
theorem c5_doc_addendum_contents (a : UnstableAttribute) (i : Item)
    (h : i.is_public = true) :
    (∃ e rest, a.expand i = e :: rest ∧
      e.item.attrs = i.attrs ++ [Attr.doc (docAddendum a)]) ∧
    (∃ pre post, docAddendum a = pre ++ a.crate_feature_name ++ post) ∧
    (∀ issue, a.issue = some issue →
      docAddendum a = availabilityDoc a.crate_feature_name
        ++ ("\nThe tracking issue is: `" ++ issue ++ "`")) ∧
    (a.issue = none → docAddendum a = availabilityDoc a.crate_feature_name) ∧
    containsChars "tracking issue".data availabilityDocPre.data = false ∧
    containsChars "tracking issue".data availabilityDocPost.data = false := by
  refine ⟨?_, ?_, ?_, ?_, by decide, by decide⟩
  · exact ⟨_, _, expand_public_eq a i h, i.push_attr_attrs _⟩
  · cases hiss : a.issue with
    | none =>
        exact ⟨availabilityDocPre, availabilityDocPost,
          by simp [docAddendum, hiss, availabilityDoc]⟩
    | some issue =>
        refine ⟨availabilityDocPre,
          availabilityDocPost ++ "\nThe tracking issue is: `" ++ issue ++ "`",
          ?_⟩
        simp [docAddendum, hiss, availabilityDocWithIssue, String.append_assoc]
  · intro issue hiss
    simp [docAddendum, hiss, availabilityDocWithIssue, availabilityDoc,
      String.append_assoc]
  · intro hiss
    simp [docAddendum, hiss]

/-- Witness for C5 at the sample configuration, which has an issue. -/
theorem c5_witness :
    (∃ e rest, sampleAttr.expand sampleFnPub = e :: rest ∧
      e.item.attrs = sampleFnPub.attrs ++ [Attr.doc (docAddendum sampleAttr)]) ∧
    (∃ pre post,
      docAddendum sampleAttr = pre ++ sampleAttr.crate_feature_name ++ post) ∧
    (∀ issue, sampleAttr.issue = some issue →
      docAddendum sampleAttr = availabilityDoc sampleAttr.crate_feature_name
        ++ ("\nThe tracking issue is: `" ++ issue ++ "`")) ∧
    (sampleAttr.issue = none →
      docAddendum sampleAttr = availabilityDoc sampleAttr.crate_feature_name) ∧
    containsChars "tracking issue".data availabilityDocPre.data = false ∧
    containsChars "tracking issue".data availabilityDocPost.data = false :=
  c5_doc_addendum_contents sampleAttr sampleFnPub rfl

theorem driveArg_isOk (a : UnstableAttribute) (m : NestedMeta) :
    (driveArg a m).isOk = wellFormedArg m := by
  rcases m with ⟨p, v⟩
  by_cases hf : p = "feature"
  · subst hf
    rcases v with _ | ((s | n | bb) | t) <;> rfl
  · by_cases hi : p = "issue"
    · subst hi
      rcases v with _ | ((s | n | bb) | t) <;> rfl
    · rcases v with _ | w <;>
        simp [driveArg, UnstableAttribute.parse, wellFormedArg, hf, hi,
          Except.isOk, Except.toBool]

theorem parseArgsFrom_isOk (args : List NestedMeta) :
    ∀ a : UnstableAttribute,
      (parseArgsFrom a args).isOk = args.all wellFormedArg := by
  induction args with
  | nil => intro a; rfl
  | cons m rest ih =>
      intro a
      have hm := driveArg_isOk a m
      cases hp : driveArg a m with
      | ok a' =>
          rw [hp] at hm
          have hwf : wellFormedArg m = true := by rw [← hm]; rfl
          simp only [parseArgsFrom, hp, List.all_cons, hwf, Bool.true_and]
          exact ih a'
      | error e =>
          rw [hp] at hm
          have hwf : wellFormedArg m = false := by rw [← hm]; rfl
          simp only [parseArgsFrom, hp, List.all_cons, hwf, Bool.false_and]
          rfl

theorem parseArgsFrom_append (l r : List NestedMeta) :
    ∀ a : UnstableAttribute,
      parseArgsFrom a (l ++ r) =
        match parseArgsFrom a l with
        | .ok a' => parseArgsFrom a' r
        | .error e => .error e := by
  induction l with
  | nil => intro a; rfl
  | cons m rest ih =>
      intro a
      show parseArgsFrom a ((m :: rest) ++ r) = _
      rw [List.cons_append]
      simp only [parseArgsFrom]
      cases hp : driveArg a m with
      | ok a' => exact ih a'
      | error e => rfl

theorem driveArg_preserves_feature (a a' : UnstableAttribute)
    (m : NestedMeta) (hm : m.path ≠ "feature")
    (h : driveArg a m = .ok a') :
    a'.feature = a.feature := by
  rcases m with ⟨p, v⟩
  replace hm : p ≠ "feature" := hm
  by_cases hi : p = "issue"
  · subst hi
    rcases v with _ | ((s | n | bb) | t) <;>
      simp [driveArg, UnstableAttribute.parse] at h <;>
      rw [← h]
  · rcases v with _ | w <;>
      simp [driveArg, UnstableAttribute.parse, hm, hi] at h <;>
      rw [← h]

theorem driveArg_preserves_issue (a a' : UnstableAttribute)
    (m : NestedMeta) (hm : m.path ≠ "issue")
    (h : driveArg a m = .ok a') :
    a'.issue = a.issue := by
  rcases m with ⟨p, v⟩
  replace hm : p ≠ "issue" := hm
  by_cases hf : p = "feature"
  · subst hf
    rcases v with _ | ((s | n | bb) | t) <;>
      simp [driveArg, UnstableAttribute.parse] at h <;>
      rw [← h]
  · rcases v with _ | w <;>
      simp [driveArg, UnstableAttribute.parse, hm, hf] at h <;>
      rw [← h]

theorem parseArgsFrom_feature_stable (args : List NestedMeta) :
    ∀ a c : UnstableAttribute,
      args.all (fun m => m.path != "feature") = true →
      parseArgsFrom a args = .ok c →
      c.feature = a.feature := by
  induction args with
  | nil =>
      intro a c _ hok
      simp only [parseArgsFrom] at hok
      injection hok with h2
      rw [← h2]
  | cons m rest ih =>
      intro a c hall hok
      simp only [List.all_cons, Bool.and_eq_true] at hall
      simp only [parseArgsFrom] at hok
      cases hp : driveArg a m with
      | ok a' =>
          rw [hp] at hok
          rw [ih a' c hall.2 hok]
          exact driveArg_preserves_feature a a' m (by simpa using hall.1) hp
      | error e =>
          rw [hp] at hok
          exact Except.noConfusion hok

theorem parseArgsFrom_issue_stable (args : List NestedMeta) :
    ∀ a c : UnstableAttribute,
      args.all (fun m => m.path != "issue") = true →
      parseArgsFrom a args = .ok c →
      c.issue = a.issue := by
  induction args with
  | nil =>
      intro a c _ hok
      simp only [parseArgsFrom] at hok
      injection hok with h2
      rw [← h2]
  | cons m rest ih =>
      intro a c hall hok
      simp only [List.all_cons, Bool.and_eq_true] at hall
      simp only [parseArgsFrom] at hok
      cases hp : driveArg a m with
      | ok a' =>
          rw [hp] at hok
          rw [ih a' c hall.2 hok]
          exact driveArg_preserves_issue a a' m (by simpa using hall.1) hp
      | error e =>
          rw [hp] at hok
          exact Except.noConfusion hok

/-- Counterexample for C8 as stated: an unrecognized argument that carries a
value is not silently accepted — its `= value` is left unconsumed by the
callback and the driver rejects it, so `since = "1.0"` aborts the whole
transformation instead of being ignored. -/
theorem c8_counterexample :
    parseArgs [⟨"since", some (.lit (.str "1.0"))⟩] = .error .synError ∧
    unstable [⟨"since", some (.lit (.str "1.0"))⟩] (.known sampleFnPub)
      = .error (.argError .synError) := ⟨rfl, rfl⟩

/-- C8 (amended): the parser recognizes exactly `feature` and `issue`; a
bare argument with any other name is silently accepted without error and
without changing the configuration, while any other name bound to a value is
a fatal parse error; a list of only bare unrecognized arguments parses to
the default configuration, and no arguments at all parse to
`{feature := none, issue := none}`. -/
theorem c8_unrecognized_ignored (a : UnstableAttribute) (m : NestedMeta)
    (args : List NestedMeta) :
    (m.path ≠ "feature" → m.path ≠ "issue" → m.value = none →
      driveArg a m = .ok a) ∧
    (m.path ≠ "feature" → m.path ≠ "issue" → ∀ w, m.value = some w →
      driveArg a m = .error .synError) ∧
    (args.all
        (fun x => x.path != "feature" && x.path != "issue" && x.value.isNone)
      = true →
      parseArgs args = .ok { feature := none, issue := none }) ∧
    parseArgs [] = .ok { feature := none, issue := none } := by
  refine ⟨?_, ?_, ?_, rfl⟩
  · intro hf hi hv
    simp [driveArg, UnstableAttribute.parse, hf, hi, hv]
  · intro hf hi w hv
    simp [driveArg, UnstableAttribute.parse, hf, hi, hv]
  · intro hall
    have key : ∀ (rest : List NestedMeta) (a0 : UnstableAttribute),
        rest.all
            (fun x => x.path != "feature" && x.path != "issue"
              && x.value.isNone) = true →
        parseArgsFrom a0 rest = .ok a0 := by
      intro rest
      induction rest with
      | nil => intro a0 _; rfl
      | cons x rest2 ih =>
          intro a0 hall2
          simp only [List.all_cons, Bool.and_eq_true] at hall2
          have hx1 : x.path ≠ "feature" := by simpa using hall2.1.1.1
          have hx2 : x.path ≠ "issue" := by simpa using hall2.1.1.2
          have hx3 : x.value = none := by
            simpa [Option.isNone_iff_eq_none] using hall2.1.2
          have hstep : driveArg a0 x = .ok a0 := by
            simp [driveArg, UnstableAttribute.parse, hx1, hx2, hx3]
          simp only [parseArgsFrom, hstep]
          exact ih a0 hall2.2
    exact key args {} hall

/-- Witness for C8: a bare `since` argument is ignored, alone or in a list,
a `since` argument with a value is rejected, and the empty argument list
gives the default configuration. -/
theorem c8_witness :
    driveArg {} ⟨"since", none⟩ = .ok {} ∧
    driveArg {} ⟨"since", some (.lit (.str "1.0"))⟩ = .error .synError ∧
    parseArgs [⟨"since", none⟩] = .ok { feature := none, issue := none } ∧
    parseArgs [] = .ok { feature := none, issue := none } := by
  have h := c8_unrecognized_ignored {} ⟨"since", none⟩ [⟨"since", none⟩]
  have h2 := c8_unrecognized_ignored {} ⟨"since", some (.lit (.str "1.0"))⟩ []
  exact ⟨h.1 (by decide) (by decide) rfl,
    h2.2.1 (by decide) (by decide) _ rfl, h.2.2.1 (by decide), h.2.2.2⟩

/-- C10: when `feature` (or `issue`) occurs several times, each bound to a
string literal, the parser accepts the list and the resulting configuration
holds the value of the last occurrence. -/
theorem c10_duplicate_args_last_wins (l r : List NestedMeta) (b : String)
    (c : UnstableAttribute) :
    (((l ++ ⟨"feature", some (.lit (.str b))⟩ :: r).all wellFormedArg) = true →
      (parseArgs (l ++ ⟨"feature", some (.lit (.str b))⟩ :: r)).isOk
        = true) ∧
    (r.all (fun m => m.path != "feature") = true →
      parseArgs (l ++ ⟨"feature", some (.lit (.str b))⟩ :: r) = .ok c →
      c.feature = some b) ∧
    (((l ++ ⟨"issue", some (.lit (.str b))⟩ :: r).all wellFormedArg) = true →
      (parseArgs (l ++ ⟨"issue", some (.lit (.str b))⟩ :: r)).isOk = true) ∧
    (r.all (fun m => m.path != "issue") = true →
      parseArgs (l ++ ⟨"issue", some (.lit (.str b))⟩ :: r) = .ok c →
      c.issue = some b) := by
  refine ⟨?_, ?_, ?_, ?_⟩
  · intro hall
    show (parseArgsFrom {} _).isOk = true
    rw [parseArgsFrom_isOk]
    exact hall
  · intro hr hok
    show c.feature = some b
    rw [show parseArgs (l ++ ⟨"feature", some (.lit (.str b))⟩ :: r)
        = parseArgsFrom {} (l ++ ⟨"feature", some (.lit (.str b))⟩ :: r)
      from rfl] at hok
    rw [parseArgsFrom_append] at hok
    cases h1 : parseArgsFrom {} l with
    | ok a1 =>
        rw [h1] at hok
        have hstep : driveArg a1 ⟨"feature", some (.lit (.str b))⟩
            = .ok { a1 with feature := some b } := rfl
        simp only [parseArgsFrom, hstep] at hok
        rw [parseArgsFrom_feature_stable r _ c hr hok]
    | error e =>
        rw [h1] at hok
        exact Except.noConfusion hok
  · intro hall
    show (parseArgsFrom {} _).isOk = true
    rw [parseArgsFrom_isOk]
    exact hall
  · intro hr hok
    show c.issue = some b
    rw [show parseArgs (l ++ ⟨"issue", some (.lit (.str b))⟩ :: r)
        = parseArgsFrom {} (l ++ ⟨"issue", some (.lit (.str b))⟩ :: r)
      from rfl] at hok
    rw [parseArgsFrom_append] at hok
    cases h1 : parseArgsFrom {} l with
    | ok a1 =>
        rw [h1] at hok
        have hstep : driveArg a1 ⟨"issue", some (.lit (.str b))⟩
            = .ok { a1 with issue := some b } := rfl
        simp only [parseArgsFrom, hstep] at hok
        rw [parseArgsFrom_issue_stable r _ c hr hok]
    | error e =>
        rw [h1] at hok
        exact Except.noConfusion hok

/-- Witness for C10: with `feature` given twice, parsing succeeds and keeps
the second value. -/
theorem c10_witness :
    parseArgs [ ⟨"feature", some (.lit (.str "a"))⟩,
                ⟨"feature", some (.lit (.str "b"))⟩ ]
      = .ok { feature := some "b", issue := none } ∧
    ({ feature := some "b", issue := none } : UnstableAttribute).feature
      = some "b" :=
  ⟨rfl,
    (c10_duplicate_args_last_wins [⟨"feature", some (.lit (.str "a"))⟩] []
      "b" { feature := some "b", issue := none }).2.1 rfl rfl⟩

/-- C7 (amended): the only fatal paths of the transformation are a
declaration shape outside the nine (not eight) supported kinds, which fails
with the unsupported-item error, and a malformed annotation argument — a
recognized name not bound to a string literal, or an unrecognized name
carrying a value the driver finds unconsumed — which fails with an argument
error; on any of the nine shapes with a well-formed annotation the
transformation succeeds. -/
theorem c7_fatal_paths (args : List NestedMeta) (input : SynItem) :
    ((unstable args input).isOk = true ↔
      args.all wellFormedArg = true ∧ input.isSupported = true) ∧
    (args.all wellFormedArg = true → input.isSupported = false →
      unstable args input = .error .unsupportedItem) ∧
    (args.all wellFormedArg = false →
      ∃ e, unstable args input = .error (.argError e)) := by
  have hok := parseArgsFrom_isOk args ({} : UnstableAttribute)
  cases h1 : parseArgs args with
  | ok cfg =>
      have hall : args.all wellFormedArg = true := by
        rw [← hok]
        show (parseArgs args).isOk = true
        rw [h1]
        rfl
      cases input with
      | known i =>
          refine ⟨?_, ?_, ?_⟩
          · simp [unstable, h1, hall, SynItem.isSupported, Except.isOk,
              Except.toBool]
          · intro _ hsup
            exact absurd hsup (by simp [SynItem.isSupported])
          · intro hf
            rw [hall] at hf
            exact absurd hf (by simp)
      | unsupported t =>
          refine ⟨?_, ?_, ?_⟩
          · simp [unstable, h1, SynItem.isSupported, Except.isOk,
              Except.toBool]
          · intro _ _
            simp [unstable, h1]
          · intro hf
            rw [hall] at hf
            exact absurd hf (by simp)
  | error e =>
      have hall : args.all wellFormedArg = false := by
        rw [← hok]
        show (parseArgs args).isOk = false
        rw [h1]
        rfl
      refine ⟨?_, ?_, ?_⟩
      · simp [unstable, h1, hall, Except.isOk, Except.toBool]
      · intro ht _
        rw [hall] at ht
        exact absurd ht (by simp)
      · intro _
        exact ⟨e, by simp [unstable, h1]⟩

/-- Witness for C7: the transformation fails with the unsupported-item error
on an unsupported shape, and with an argument error on a non-string
`feature` value. -/
theorem c7_witness :
    unstable [⟨"feature", some (.lit (.str "x"))⟩] (.unsupported "impl Foo")
      = .error .unsupportedItem ∧
    ∃ e, unstable [⟨"feature", some (.lit (.int 42))⟩] (.known sampleFnPub)
      = .error (.argError e) :=
  ⟨(c7_fatal_paths [⟨"feature", some (.lit (.str "x"))⟩]
      (.unsupported "impl Foo")).2.1 rfl rfl,
    (c7_fatal_paths [⟨"feature", some (.lit (.int 42))⟩]
      (.known sampleFnPub)).2.2 rfl⟩

/-- One concrete item of each of the nine shapes the dispatch accepts. -/
def nineShapes : List SynItem :=
  [ .known (.itemType { attrs := [], vis := .pub, tokens := "type A" }),
    .known (.itemEnum { attrs := [], vis := .pub, tokens := "enum E" }),
    .known (.itemStruct
      { attrs := [], vis := .pub, fields := [], tokens := "struct S" }),
    .known (.itemFn { attrs := [], vis := .pub, tokens := "fn f()" }),
    .known (.itemMod { attrs := [], vis := .pub, tokens := "mod m" }),
    .known (.itemTrait { attrs := [], vis := .pub, tokens := "trait T" }),
    .known (.itemConst { attrs := [], vis := .pub, tokens := "const C" }),
    .known (.itemStatic { attrs := [], vis := .pub, tokens := "static S2" }),
    .known (.itemUse { attrs := [], vis := .pub, tokens := "use u" }) ]

/-- Counterexample for C7 as stated: the dispatch accepts nine pairwise
distinct declaration shapes, not eight, so a shape outside "the eight
supported kinds" need not fail. -/
theorem c7_counterexample :
    nineShapes.map SynItem.shapeTag = [0, 1, 2, 3, 4, 5, 6, 7, 8] ∧
    nineShapes.all (fun s => (unstable [] s).isOk) = true ∧
    nineShapes.length ≠ 8 := by
  refine ⟨rfl, rfl, by decide⟩

/-- Witness for C3: the cascade at a concrete struct with one public and one
restricted field. -/
theorem c3_witness :
    ((Item.itemStruct
        { attrs := [], vis := .pub,
          fields := [ { vis := .pub, tokens := "a: u32" },
                      { vis := .restricted "super", tokens := "b: u32" } ],
          tokens := "struct S" }).set_visibility
        (.restricted "crate")).visibility = .restricted "crate" ∧
    (Item.itemStruct
        { attrs := [], vis := .pub,
          fields := [ { vis := .pub, tokens := "a: u32" },
                      { vis := .restricted "super", tokens := "b: u32" } ],
          tokens := "struct S" }).set_visibility (.restricted "crate")
      = Item.itemStruct
          { attrs := [], vis := .restricted "crate",
            fields := cascadeFields (.restricted "crate")
              [ { vis := .pub, tokens := "a: u32" },
                { vis := .restricted "super", tokens := "b: u32" } ],
            tokens := "struct S" } ∧
    cascadeFields (.restricted "crate")
        [ { vis := .pub, tokens := "a: u32" },
          { vis := .restricted "super", tokens := "b: u32" } ]
      = [ { vis := .restricted "crate", tokens := "a: u32" },
          { vis := .restricted "super", tokens := "b: u32" } ] := by
  have h := c3_set_visibility_struct_cascade
    { attrs := [], vis := .pub,
      fields := [ { vis := .pub, tokens := "a: u32" },
                  { vis := .restricted "super", tokens := "b: u32" } ],
      tokens := "struct S" } (.restricted "crate")
  exact ⟨h.1, h.2.1, rfl⟩
